import Mathlib

/-!
Verification development for the ICE 2D engine core
(`src/types.ts` GameCanvas simulation/render loop, `src/utils/exportGame.ts`
exported bundle loop, `src/App.tsx` prefab handling).

Modelling conventions, used uniformly below:
* JavaScript numbers are modelled as exact rationals (`ℚ`); the spec's claims
  are arithmetic identities, stated over the exact semantics.
* `Math.cos` / `Math.sin` are transcendental, so rotation is parameterised by
  a trigonometric oracle `Trig : ℚ → ℚ × ℚ` mapping an angle in degrees to
  the (cosine, sine) pair that `Math.cos`/`Math.sin` return for the radian
  conversion the source performs at that use site.
* `Math.random()` draws are explicit oracle inputs.
* Reflective property access (`target[parts[i]]`) is modelled on a tree of
  JavaScript values (`JSVal`); a thrown `TypeError` is `Except.error ()`.
  Source objects are produced by `JSON.parse`, hence trees (no aliasing), so
  the in-place mutation of a nested object is modelled by a functional
  write-back along the path.
-/

namespace Ice

/-- 2-D vector with rational coordinates (`Vector2` in `src/types.ts`). -/
structure Vector2 where
  x : ℚ
  y : ℚ
deriving DecidableEq, Repr

/-- `EntityType` in `src/types.ts`. -/
inductive EntityType where
  | rect | circle | sprite | button | tilemap | particles
deriving DecidableEq, Repr

/-- `AnchorType` in `src/types.ts`: the nine-point UI anchor. -/
inductive AnchorType where
  | topLeft | topCenter | topRight
  | centerLeft | center | centerRight
  | bottomLeft | bottomCenter | bottomRight
deriving DecidableEq, Repr

/-- `TransformComponent` in `src/types.ts`. -/
structure TransformComponent where
  position : Vector2
  rotation : ℚ
  scale : Vector2
  isUI : Option Bool := none
  anchor : Option AnchorType := none
deriving DecidableEq, Repr

/-- `PhysicsComponent` in `src/types.ts`. -/
structure PhysicsComponent where
  velocity : Vector2
  isStatic : Bool
  gravityScale : ℚ
deriving DecidableEq, Repr

/-- `RendererComponent` in `src/types.ts` (sprite-animation bookkeeping kept
as plain data). -/
structure RendererComponent where
  type : EntityType
  color : String
  width : ℚ
  height : ℚ
  spriteUrl : Option String := none
  text : Option String := none
  fontSize : Option ℚ := none
  cols : Option ℕ := none
  rows : Option ℕ := none
  currentFrame : Option ℕ := none
  parallaxFactor : Option ℚ := none
deriving DecidableEq, Repr

/-- `ScriptComponent` in `src/types.ts`. -/
structure ScriptComponent where
  isCustom : Bool
  content : Option String := none
deriving DecidableEq, Repr

/-- `ParticleEmitterComponent` in `src/types.ts`.  `maxParticles` is the pool
cap; the inspector edits it as an integer count. -/
structure ParticleEmitterComponent where
  emitting : Bool
  maxParticles : ℕ
  emissionRate : ℚ
  lifetime : ℚ
  lifetimeRange : ℚ
  speed : ℚ
  speedRange : ℚ
  angle : ℚ
  spread : ℚ
  colorStart : String
  colorEnd : String
  sizeStart : ℚ
  sizeEnd : ℚ
deriving DecidableEq, Repr

/-- `TilemapLayer` in `src/types.ts`: a 1-D array of tile indices. -/
structure TilemapLayer where
  name : String
  data : List ℤ
deriving DecidableEq, Repr

/-- `TilemapComponent` in `src/types.ts`. -/
structure TilemapComponent where
  tileSize : ℕ
  columns : ℕ
  rows : ℕ
  layers : List TilemapLayer
  tilesetUrl : Option String := none
deriving DecidableEq, Repr

/-- `Keyframe` in `src/types.ts`. -/
structure Keyframe where
  time : ℚ
  value : ℚ
deriving DecidableEq, Repr

/-- `PropertyAnimation` in `src/types.ts`. -/
structure PropertyAnimation where
  name : String
  property : String
  keyframes : List Keyframe
  loop : Bool
  playing : Bool
  currentTime : ℚ
deriving DecidableEq, Repr

/-- `Entity` in `src/types.ts`. -/
structure Entity where
  id : String
  name : String
  transform : TransformComponent
  physics : Option PhysicsComponent := none
  renderer : RendererComponent
  script : Option ScriptComponent := none
  particles : Option ParticleEmitterComponent := none
  tilemap : Option TilemapComponent := none
  propertyAnimations : Option (List PropertyAnimation) := none
  prefabId : Option String := none
deriving DecidableEq, Repr

/-! ## JavaScript value trees and reflective property paths

The property-animation interpolator resolves `anim.property.split('.')`
against the entity object by repeated dynamic member access
(`src/types.ts` lines 462-470, `src/utils/exportGame.ts` lines 441-448).
We model the entity's JSON-shaped data as a `JSVal` tree. -/

/-- A JSON-shaped JavaScript value, as produced by `JSON.parse`. -/
inductive JSVal where
  | undef
  | boolean (b : Bool)
  | num (q : ℚ)
  | str (s : String)
  | obj (fields : List (String × JSVal))

namespace JSVal

/-- Dynamic member read `v[k]`.  Reading a missing key of an object yields
`undefined`; reading a member of a primitive boxes it and yields `undefined`
for keys the model does not track; reading a member of `undefined` throws a
`TypeError`. -/
def getProp : JSVal → String → Except Unit JSVal
  | undef, _ => .error ()
  | boolean _, _ => .ok undef
  | num _, _ => .ok undef
  | str _, _ => .ok undef
  | obj fields, k => .ok ((fields.lookup k).getD undef)

/-- JavaScript truthiness, restricted to JSON-shaped values. -/
def truthy : JSVal → Bool
  | undef => false
  | boolean b => b
  | num q => q != 0
  | str s => s != ""
  | obj _ => true

/-- Replace (or insert) a key in an object's field list, keeping order. -/
def setField : List (String × JSVal) → String → JSVal → List (String × JSVal)
  | [], k, v => [(k, v)]
  | (k', v') :: rest, k, v =>
    if k' = k then (k, v) :: rest else (k', v') :: setField rest k v

/-- Dynamic member write `v[k] = w` under strict-mode semantics (the editor
code lives in an ES module): assigning to a property of a primitive or of
`undefined` throws a `TypeError`. -/
def setProp : JSVal → String → JSVal → Except Unit JSVal
  | obj fields, k, v => .ok (obj (setField fields k v))
  | _, _, _ => .error ()

/-- The walk `for (i = 0; i < parts.length - 1; i++) target = target[parts[i]]`
applied to the listed segments: each step is a dynamic member read. -/
def walkParent : JSVal → List String → Except Unit JSVal
  | v, [] => .ok v
  | v, p :: ps =>
    match getProp v p with
    | .error _ => .error ()
    | .ok v' => walkParent v' ps

/-- Functional write-back of an updated parent value along the walked path.
The source mutates the nested object in place; on the JSON trees at hand the
two are the same.  Off-tree positions (primitives) absorb the write, matching
the fact that the in-place mutation of a boxed primitive is lost. -/
def writeBack : JSVal → List String → JSVal → JSVal
  | _, [], p => p
  | obj fields, k :: ks, p =>
    obj (setField fields k (writeBack ((fields.lookup k).getD undef) ks p))
  | v, _ :: _, _ => v

end JSVal

/-- The animation pass's guarded assignment (`src/types.ts` lines 462-470):
walk all but the last segment to the parent, then `if (target)` assign the
final segment, else skip silently.  An exception from the walk (or from a
strict-mode write to a truthy primitive parent) propagates: there is no
try/catch around the animation pass. -/
def applyPath (d : JSVal) (parts : List String) (v : ℚ) : Except Unit JSVal :=
  match JSVal.walkParent d parts.dropLast with
  | .error _ => .error ()
  | .ok parent =>
    if JSVal.truthy parent then
      match JSVal.setProp parent (parts.getLastD "") (.num v) with
      | .error _ => .error ()
      | .ok parent' => .ok (JSVal.writeBack d parts.dropLast parent')
    else .ok d

/-- Unguarded assignment `a.b.c = v` by direct member access, used by the
physics sync (`entity.transform.position.x = body.position.x`,
`src/types.ts` lines 380-385): no truthiness guard, assignment to a
non-object parent throws. -/
def jsSetPath (d : JSVal) (parts : List String) (v : ℚ) : Except Unit JSVal :=
  match JSVal.walkParent d parts.dropLast with
  | .error _ => .error ()
  | .ok parent =>
    match JSVal.setProp parent (parts.getLastD "") (.num v) with
    | .error _ => .error ()
    | .ok parent' => .ok (JSVal.writeBack d parts.dropLast parent')

/-- Read `a.b.c` by direct member access (throws on a mid-path `undefined`). -/
def jsGetPath (d : JSVal) (parts : List String) : Except Unit JSVal :=
  JSVal.walkParent d parts

/-- Numeric coercion used where the source feeds a read value into
arithmetic; non-numeric data would produce `NaN`, which the claims never
exercise, so it defaults to `0`. -/
def asNum : JSVal → ℚ
  | .num q => q
  | _ => 0

/-! ## Property-animation interpolator (`src/types.ts` lines 430-473) -/

/-- JavaScript's `%` on numbers: truncated remainder (`a - b * trunc(a/b)`).
The source only reaches it with `currentTime > maxTime ≥ 0`; `b = 0` (a
degenerate single-time animation) would give `NaN` in JS and is outside the
rational model. -/
def jsMod (a b : ℚ) : ℚ :=
  if a / b < 0 then a - b * ⌈a / b⌉ else a - b * ⌊a / b⌋

/-- The bracketing-keyframe linear scan (`src/types.ts` lines 450-456):
the first adjacent pair `(kfs[i], kfs[i+1])` with
`kfs[i].time ≤ t ≤ kfs[i+1].time`. -/
def scanPairs : List Keyframe → ℚ → Option (Keyframe × Keyframe)
  | k1 :: k2 :: rest, t =>
    if k1.time ≤ t ∧ t ≤ k2.time then some (k1, k2) else scanPairs (k2 :: rest) t
  | _, _ => none

/-- Bracket selection: the scan's result, defaulting to
`(keyframes[0], keyframes[keyframes.length - 1])` as initialised before the
loop (`src/types.ts` lines 436-437). -/
def findBracket (kfs : List Keyframe) (t : ℚ) : Keyframe × Keyframe :=
  (scanPairs kfs t).getD (kfs.headD ⟨0, 0⟩, kfs.getLastD ⟨0, 0⟩)

/-- `String.split('.')` over the character list: a `'.'` starts a new
segment, exactly as the JavaScript `split` with a one-character separator
(`"a..b"` gives `["a", "", "b"]`, `""` gives `[""]`). -/
def splitDotChars : List Char → List (List Char)
  | [] => [[]]
  | ch :: rest =>
    match splitDotChars rest with
    | [] => [[]]
    | cur :: done =>
      if ch = '.' then [] :: cur :: done
      else (ch :: cur) :: done

/-- `anim.property.split('.')`. -/
def jsSplitDot (s : String) : List String :=
  (splitDotChars s.toList).map List.asString

/-- Cursor advance with wrap/clamp (`src/types.ts` lines 433-448): add `dt`;
past the final keyframe time a looping animation wraps by the JS `%` and a
non-looping one clamps and stops. -/
def advanceCursor (a : PropertyAnimation) (dt : ℚ) : ℚ × Bool :=
  let ct0 := a.currentTime + dt
  let maxTime := (a.keyframes.getLastD ⟨0, 0⟩).time
  if ct0 > maxTime then
    if a.loop then (jsMod ct0 maxTime, a.playing)
    else (maxTime, false)
  else (ct0, a.playing)

/-- The interpolated sample (`src/types.ts` lines 458-460): fraction between
the bracketing keyframes, linearly blended. -/
def lerpValue (kfs : List Keyframe) (ct : ℚ) : ℚ :=
  let br := findBracket kfs ct
  br.1.value + (br.2.value - br.1.value) *
    ((ct - br.1.time) / (br.2.time - br.1.time))

/-- One `update` pass over a single property animation
(`src/types.ts` lines 431-471): advance the cursor, wrap or clamp at the
final keyframe time, locate the bracket, linearly interpolate, and assign
through the dotted path on the entity data `d`. -/
def stepAnim (dt : ℚ) (a : PropertyAnimation) (d : JSVal) :
    Except Unit (PropertyAnimation × JSVal) :=
  if a.playing ∧ a.keyframes.length > 1 then
    let cp := advanceCursor a dt
    let value := lerpValue a.keyframes cp.1
    match applyPath d (jsSplitDot a.property) value with
    | .error _ => .error ()
    | .ok d' => .ok ({ a with currentTime := cp.1, playing := cp.2 }, d')
  else .ok (a, d)

/-- `entity.propertyAnimations.forEach(...)`: the animations of one entity in
order, threading the entity data.  An uncaught exception aborts the pass. -/
def stepAnims (dt : ℚ) : List PropertyAnimation → JSVal →
    Except Unit (List PropertyAnimation × JSVal)
  | [], d => .ok ([], d)
  | a :: rest, d =>
    match stepAnim dt a d with
    | .error _ => .error ()
    | .ok (a', d') =>
      match stepAnims dt rest d' with
      | .error _ => .error ()
      | .ok (rest', d'') => .ok (a' :: rest', d'')

/-! ## Particle subsystem (`src/types.ts` lines 387-427) -/

/-- A pooled particle (the object literal pushed at `src/types.ts` line 416). -/
structure Particle where
  x : ℚ
  y : ℚ
  vx : ℚ
  vy : ℚ
  life : ℚ
  maxLife : ℚ
deriving DecidableEq, Repr

/-- Trigonometric oracle: degrees to the `(cos, sin)` pair the source obtains
from `Math.cos/Math.sin` after its own degrees-to-radians conversion. -/
def Trig : Type := ℚ → ℚ × ℚ

/-- One spawn's three `Math.random()` draws (direction, speed, lifetime). -/
structure SpawnDraw where
  r1 : ℚ
  r2 : ℚ
  r3 : ℚ
deriving DecidableEq, Repr

/-- Per-step emitter randomness: the Bernoulli draw on the fractional
remainder and the per-spawn draws, indexed by spawn number. -/
structure EmitInput where
  bern : Bool
  draws : ℕ → SpawnDraw

/-- The ageing sweep (`src/types.ts` lines 393-402): iterate downwards,
decrement `life` by `dt`, splice out dead particles (`life ≤ 0`), advance the
survivors by their velocity.  Downward iteration with `splice` keeps order,
so it is the order-preserving filter-map below. -/
def ageParticles (dt : ℚ) (pool : List Particle) : List Particle :=
  pool.filterMap fun p =>
    let life := p.life - dt
    if life ≤ 0 then none
    else some { p with life := life, x := p.x + p.vx * dt, y := p.y + p.vy * dt }

/-- One spawned particle (`src/types.ts` lines 412-423). -/
def spawnParticle (trig : Trig) (cfg : ParticleEmitterComponent)
    (pos : ℚ × ℚ) (d : SpawnDraw) : Particle :=
  let angleDeg := cfg.angle + (d.r1 - 1/2) * cfg.spread
  let (c, s) := trig angleDeg
  let speed := cfg.speed + (d.r2 - 1/2) * cfg.speedRange
  let life := cfg.lifetime + (d.r3 - 1/2) * cfg.lifetimeRange
  { x := pos.1, y := pos.2, vx := c * speed, vy := s * speed,
    life := life, maxLife := life }

/-- The emission loop (`src/types.ts` lines 411-425):
`while (emitCount > 0 && pool.length < maxParticles) push(...)`.
`n` is the remaining `emitCount`; `k` numbers the spawns for the draw
oracle. -/
def emitLoop (trig : Trig) (cfg : ParticleEmitterComponent) (pos : ℚ × ℚ)
    (draws : ℕ → SpawnDraw) : ℕ → ℕ → List Particle → List Particle
  | _, 0, pool => pool
  | k, n + 1, pool =>
    if pool.length < cfg.maxParticles then
      emitLoop trig cfg pos draws (k + 1) n
        (pool ++ [spawnParticle trig cfg pos (draws k)])
    else pool

/-- Emission for one step (`src/types.ts` lines 405-426): with
`toEmit = emissionRate * dt`, emit `floor(toEmit)` particles plus one more
when the Bernoulli draw on the fractional remainder succeeds, stopping early
at the pool cap.  A run of `emitCount ≤ 0` (negative rate or dt) never enters
the loop, which `Int.toNat` reproduces. -/
def emitParticles (trig : Trig) (cfg : ParticleEmitterComponent)
    (inp : EmitInput) (dt : ℚ) (pos : ℚ × ℚ) (pool : List Particle) :
    List Particle :=
  let toEmit := cfg.emissionRate * dt
  let whole := ⌊toEmit⌋
  let emitCount := whole + (if inp.bern then 1 else 0)
  emitLoop trig cfg pos inp.draws 0 emitCount.toNat pool

/-- One full particle step for one emitter: age and cull, then emit while
`emitting` (`src/types.ts` lines 388-427). -/
def stepParticles (trig : Trig) (cfg : ParticleEmitterComponent)
    (inp : EmitInput) (dt : ℚ) (pos : ℚ × ℚ) (pool : List Particle) :
    List Particle :=
  let aged := ageParticles dt pool
  if cfg.emitting then emitParticles trig cfg inp dt pos aged else aged

/-! ## The per-frame simulation step (`src/types.ts` lines 365-496)

`update(dt)` walks the entity list once: physics sync, particles, property
animations, then the custom script, in that order.  The entity's JSON-shaped
fields reachable by reflection (`transform`, `physics`, ...) are the `data`
tree; the typed pieces the step manipulates structurally are alongside.  The
per-entity particle pool lives in `particlesRef` keyed by entity id; keeping
it on the model entity is the same keying. -/

/-- A simulated entity as the frame loop sees it. -/
structure SimEntity where
  data : JSVal
  anims : List PropertyAnimation
  emitter : Option ParticleEmitterComponent
  pool : List Particle
  hasScript : Bool

/-- The physics body state read back from the Matter.js body
(`body.position.x/y` and `body.angle * 180 / Math.PI`, already converted to
degrees). -/
structure BodyState where
  x : ℚ
  y : ℚ
  angleDeg : ℚ
deriving DecidableEq, Repr

/-- Per-frame input for one entity: the Matter body (if one exists in
`matterBodiesRef`) and the emitter randomness. -/
structure EntityInput where
  body : Option BodyState
  emit : EmitInput

/-- A script execution: the host-supplied snippet may transform the entity
arbitrarily or throw. -/
def ScriptSem : Type := SimEntity → Except Unit SimEntity

/-- `truthy (entity.physics)`: the `entity.physics && ...` guard. -/
def truthyField (d : JSVal) (k : String) : Bool :=
  match d with
  | .obj fields => JSVal.truthy ((fields.lookup k).getD .undef)
  | _ => false

/-- Physics sync (`src/types.ts` lines 380-385): copy the body pose into
`entity.transform.position.x/.y` and `entity.transform.rotation` by direct
member assignment. -/
def physSync (b : BodyState) (d : JSVal) : Except Unit JSVal :=
  match jsSetPath d ["transform", "position", "x"] b.x with
  | .error _ => .error ()
  | .ok d1 =>
    match jsSetPath d1 ["transform", "position", "y"] b.y with
    | .error _ => .error ()
    | .ok d2 => jsSetPath d2 ["transform", "rotation"] b.angleDeg

/-- The script invocation with its `try`/`catch`
(`src/types.ts` lines 476-487): a thrown error is caught and logged, leaving
the entity as updated so far. -/
def runScriptStage (σ : ScriptSem) (hasScript : Bool) (e' : SimEntity) :
    Except Unit SimEntity :=
  if hasScript then
    match σ e' with
    | .ok e'' => .ok e''
    | .error _ => .ok e'
  else
    .ok e'

/-- One entity's frame update (the body of `entitiesRef.current.map` at
`src/types.ts` lines 378-490): physics sync, particles, property animations,
then the script.  Only the script invocation sits in a `try`/`catch`
(lines 477-487); an exception anywhere else escapes. -/
def updateEntity (trig : Trig) (σ : ScriptSem) (dt : ℚ) (inp : EntityInput)
    (e : SimEntity) : Except Unit SimEntity :=
  -- Sync Physics
  let syncRes : Except Unit JSVal :=
    match truthyField e.data "physics", inp.body with
    | true, some b => physSync b e.data
    | _, _ => .ok e.data
  match syncRes with
  | .error _ => .error ()
  | .ok d =>
    -- Particles (the position reads are member accesses on `d`)
    let poolRes : Except Unit (List Particle) :=
      match e.emitter with
      | some cfg =>
        match jsGetPath d ["transform", "position", "x"] with
        | .error _ => .error ()
        | .ok px =>
          match jsGetPath d ["transform", "position", "y"] with
          | .error _ => .error ()
          | .ok py =>
            .ok (stepParticles trig cfg inp.emit dt (asNum px, asNum py) e.pool)
      | none => .ok e.pool
    match poolRes with
    | .error _ => .error ()
    | .ok pool =>
      -- Property Animations
      match stepAnims dt e.anims d with
      | .error _ => .error ()
      | .ok (anims, d') =>
        -- Custom Scripts (errors caught per entity and logged)
        runScriptStage σ e.hasScript
          { e with data := d', anims := anims, pool := pool }

/-- The whole animation/update pass of one frame (`update`,
`src/types.ts` lines 365-496): the entity list in scene order.  Entities are
mutated in place in the source; an uncaught exception aborts the remaining
entities of the frame, which the `Except` propagation models. -/
def update (trig : Trig) (σ : ScriptSem) (dt : ℚ) (inps : ℕ → EntityInput) :
    ℕ → List SimEntity → Except Unit (List SimEntity)
  | _, [] => .ok []
  | i, e :: rest =>
    match updateEntity trig σ dt (inps i) e with
    | .error _ => .error ()
    | .ok e' =>
      match update trig σ dt inps (i + 1) rest with
      | .error _ => .error ()
      | .ok rest' => .ok (e' :: rest')

/-- One frame's inputs: the capped `dt` handed to `update` and the
per-entity oracle data. -/
structure FrameInput where
  dt : ℚ
  inps : ℕ → EntityInput

/-- A run of consecutive frames.  In the editor loop a frame that throws
kills the `requestAnimationFrame` chain, so later frames never run; the
`Except` fold models that. -/
def runFrames (trig : Trig) (σ : ScriptSem) :
    List FrameInput → List SimEntity → Except Unit (List SimEntity)
  | [], es => .ok es
  | f :: fs, es =>
    match update trig σ f.dt f.inps 0 es with
    | .error _ => .error ()
    | .ok es' => runFrames trig σ fs es'

/-- A script that throws on every invocation. -/
def throwingScript : ScriptSem := fun _ => .error ()

/-- A script that does nothing. -/
def inertScript : ScriptSem := fun e => .ok e

/-! ## Fixed-timestep accumulator (`src/types.ts` lines 363-376 and 730-740;
`src/utils/exportGame.ts` lines 350-360)

The editor loop calls `update(Math.min(dt, 0.1))` and `update` runs
`accumulator += dt; while (accumulator >= fixedTimestep) { advance;
accumulator -= fixedTimestep }`.  The `while` loop is encoded with a fuel
argument; `catchUp` supplies fuel strictly larger than the number of
iterations the loop performs, so the encoding never cuts the loop short. -/

/-- `while (acc >= ft) { advance once; acc -= ft }`, returning the number of
physics advances and the remaining accumulator. -/
def stepLoop : ℕ → ℚ → ℚ → ℕ × ℚ
  | 0, _, acc => (0, acc)
  | fuel + 1, ft, acc =>
    if ft ≤ acc then
      let r := stepLoop fuel ft (acc - ft)
      (r.1 + 1, r.2)
    else (0, acc)

/-- The drained `while` loop with sufficient fuel. -/
def catchUp (ft acc : ℚ) : ℕ × ℚ :=
  stepLoop (⌈acc / ft⌉.toNat + 1) ft acc

/-- One frame's accumulator handling: add the frame `dt` capped at `0.1`,
then drain the accumulator in `fixedTimestep` quanta. -/
def frameAdvance (ft acc dt : ℚ) : ℕ × ℚ :=
  catchUp ft (acc + min dt (1/10))

/-! ## Canvas 2D transform state and the renderer's UI branch
(`src/types.ts` lines 498-558)

`draw` saves the context, applies the camera transform (translate to the
canvas centre, scale by zoom), and for each entity `drawEntity` saves again;
the UI branch then executes `ctx.restore(); ctx.save()` intending to undo the
camera transform, computes the nine-point-anchored position, and translates,
rotates and scales.  The model below reproduces the Canvas2D save/restore
stack exactly. -/

/-- A Canvas2D affine transform `(a b c d e f)`:
`x' = a·x + c·y + e`, `y' = b·x + d·y + f`. -/
structure Affine where
  a : ℚ
  b : ℚ
  c : ℚ
  d : ℚ
  e : ℚ
  f : ℚ
deriving DecidableEq, Repr

/-- Apply an affine transform to a point. -/
def Affine.apply (m : Affine) (p : ℚ × ℚ) : ℚ × ℚ :=
  (m.a * p.1 + m.c * p.2 + m.e, m.b * p.1 + m.d * p.2 + m.f)

/-- Composition `m ∘ n` (first `n`, then `m`): how the canvas post-multiplies
the current transform by each new operation. -/
def Affine.mul (m n : Affine) : Affine :=
  { a := m.a * n.a + m.c * n.b
    b := m.b * n.a + m.d * n.b
    c := m.a * n.c + m.c * n.d
    d := m.b * n.c + m.d * n.d
    e := m.a * n.e + m.c * n.f + m.e
    f := m.b * n.e + m.d * n.f + m.f }

/-- The identity transform of a freshly obtained context. -/
def Affine.ident : Affine := ⟨1, 0, 0, 1, 0, 0⟩

/-- The Canvas2D drawing state: current transform plus the save stack. -/
structure Ctx where
  cur : Affine
  stack : List Affine
deriving DecidableEq, Repr

/-- `ctx.save()`: push a copy of the current state. -/
def ctxSave (c : Ctx) : Ctx := { c with stack := c.cur :: c.stack }

/-- `ctx.restore()`: pop the top saved state into the current one (no-op on
an empty stack). -/
def ctxRestore (c : Ctx) : Ctx :=
  match c.stack with
  | [] => c
  | t :: rest => { cur := t, stack := rest }

/-- `ctx.translate(tx, ty)`. -/
def ctxTranslate (c : Ctx) (tx ty : ℚ) : Ctx :=
  { c with cur := c.cur.mul ⟨1, 0, 0, 1, tx, ty⟩ }

/-- `ctx.scale(sx, sy)`. -/
def ctxScale (c : Ctx) (sx sy : ℚ) : Ctx :=
  { c with cur := c.cur.mul ⟨sx, 0, 0, sy, 0, 0⟩ }

/-- `ctx.rotate(θ)` given the oracle values `cs = cos θ`, `sn = sin θ`. -/
def ctxRotate (c : Ctx) (cs sn : ℚ) : Ctx :=
  { c with cur := c.cur.mul ⟨cs, sn, -sn, cs, 0, 0⟩ }

/-- The nine-point anchor adjustment of `drawEntity`'s UI branch
(`src/types.ts` lines 529-547): the raw position, offset by the anchored
canvas corner/edge/centre. -/
def anchorAdjust (w h : ℚ) (anchor : Option AnchorType) (pos : Vector2) :
    ℚ × ℚ :=
  match anchor with
  | none => (pos.x, pos.y)
  | some a =>
    match a with
    | .topLeft => (pos.x, pos.y)
    | .topCenter => (pos.x + w / 2, pos.y)
    | .topRight => (pos.x + w, pos.y)
    | .centerLeft => (pos.x, pos.y + h / 2)
    | .center => (pos.x + w / 2, pos.y + h / 2)
    | .centerRight => (pos.x + w, pos.y + h / 2)
    | .bottomLeft => (pos.x, pos.y + h)
    | .bottomCenter => (pos.x + w / 2, pos.y + h)
    | .bottomRight => (pos.x + w, pos.y + h)

/-- `draw`'s preamble (`src/types.ts` lines 508-513): save, translate to the
canvas centre, scale by zoom. -/
def drawPreamble (w h zoom : ℚ) (c : Ctx) : Ctx :=
  ctxScale (ctxTranslate (ctxSave c) (w / 2) (h / 2)) zoom zoom

/-- `drawEntity`'s transform steps for a UI entity
(`src/types.ts` lines 521-558): save; restore; save; translate to the
anchored position; rotate (oracle pair `(rc, rs)` for the entity's rotation);
scale. -/
def drawEntityUICtx (w h : ℚ) (anchor : Option AnchorType) (pos : Vector2)
    (rc rs sx sy : ℚ) (c : Ctx) : Ctx :=
  let c1 := ctxSave c
  let c2 := ctxRestore c1
  let c3 := ctxSave c2
  let xy := anchorAdjust w h anchor pos
  let c4 := ctxTranslate c3 xy.1 xy.2
  let c5 := ctxRotate c4 rc rs
  ctxScale c5 sx sy

/-- The screen pixel at which a UI entity's local origin lands: run the
`draw` preamble and the UI `drawEntity` steps from a fresh context and push
the local origin through the resulting current transform. -/
def uiScreenPos (w h zoom : ℚ) (anchor : Option AnchorType) (pos : Vector2)
    (rc rs sx sy : ℚ) : ℚ × ℚ :=
  let c0 : Ctx := ⟨Affine.ident, []⟩
  let c := drawEntityUICtx w h anchor pos rc rs sx sy (drawPreamble w h zoom c0)
  c.cur.apply (0, 0)

/-! ## Pointer hit-testing (`src/types.ts` lines 898-926) -/

/-- Whether the pointer at screen position `p` (already camera-relative)
hits entity `e`: subtract the parallax-adjusted camera offset, inverse-rotate
into local space (the oracle returns `(cos α, sin α)` for
`α = -rotation·π/180`), then test circle containment for circles (the
source's `Math.sqrt(localX² + localY²) ≤ w/2`, written squared) and the
scaled bounding box otherwise. -/
def containsPoint (trig : Trig) (cam : ℚ × ℚ) (p : ℚ × ℚ) (e : Entity) :
    Bool :=
  let parallax := e.renderer.parallaxFactor.getD 1
  let ex := e.transform.position.x - cam.1 * parallax
  let ey := e.transform.position.y - cam.2 * parallax
  let w := e.renderer.width * e.transform.scale.x
  let h := e.renderer.height * e.transform.scale.y
  let dx := p.1 - ex
  let dy := p.2 - ey
  let cs := trig e.transform.rotation
  let localX := dx * cs.1 - dy * cs.2
  let localY := dx * cs.2 + dy * cs.1
  if e.renderer.type = .circle then
    decide (0 ≤ w ∧ localX ^ 2 + localY ^ 2 ≤ (w / 2) ^ 2)
  else
    decide (-(w / 2) ≤ localX ∧ localX ≤ w / 2 ∧
      -(h / 2) ≤ localY ∧ localY ≤ h / 2)

/-- `[...entities].reverse().find(...)`: the hit test walks candidates
topmost-first. -/
def hitTestEntities (trig : Trig) (cam : ℚ × ℚ) (p : ℚ × ℚ)
    (es : List Entity) : Option Entity :=
  es.reverse.find? (containsPoint trig cam p)

/-! ## Tilemap rendering (`src/types.ts` lines 648-672;
`src/utils/exportGame.ts` lines 562-590) -/

/-- One `ctx.drawImage` call for a tile: source pixel rectangle origin in the
tileset and destination position in entity-local space. -/
structure TileDraw where
  sx : ℕ
  sy : ℕ
  dx : ℚ
  dy : ℚ
deriving DecidableEq, Repr

/-- The tile draws one layer produces (`src/types.ts` lines 654-667):
skip `tileIndex ≤ 0`; otherwise source tile `tileIndex - 1` of the tileset
(`tilesPerRow = floor(imageWidth / tileSize)`, row-major), drawn at grid cell
`(i mod columns, i div columns)` offset by minus half the grid extent. -/
def drawTilemapLayer (imgW : ℕ) (tm : TilemapComponent) (layer : TilemapLayer) :
    List TileDraw :=
  let tilesPerRow := imgW / tm.tileSize
  let hw : ℚ := (tm.columns * tm.tileSize : ℕ) / 2
  let hh : ℚ := (tm.rows * tm.tileSize : ℕ) / 2
  layer.data.enum.filterMap fun en =>
    let i := en.1
    let tileIndex := en.2
    if 0 < tileIndex then
      let m := (tileIndex - 1).toNat
      some { sx := m % tilesPerRow * tm.tileSize
             sy := m / tilesPerRow * tm.tileSize
             dx := -hw + (i % tm.columns : ℕ) * (tm.tileSize : ℚ)
             dy := -hh + (i / tm.columns : ℕ) * (tm.tileSize : ℚ) }
    else none

/-- Modelled from the claim's wording, for comparison with the code: index 0
is an empty cell drawing nothing; index `n > 0` selects source tile `n - 1`
laid out row-major with `floor(imageWidth / tileSize)` tiles per row; cell
`i` sits at grid column `i mod columns`, grid row `i div columns`, with the
whole grid centred on the entity origin. -/
def tilemapLayerSpec (imgW : ℕ) (tm : TilemapComponent) (layer : TilemapLayer) :
    List TileDraw :=
  layer.data.enum.filterMap fun en =>
    if 0 < en.2 then
      some { sx := (en.2 - 1).toNat % (imgW / tm.tileSize) * tm.tileSize
             sy := (en.2 - 1).toNat / (imgW / tm.tileSize) * tm.tileSize
             dx := (en.1 % tm.columns : ℕ) * (tm.tileSize : ℚ) -
               (tm.columns * tm.tileSize : ℕ) / 2
             dy := (en.1 / tm.columns : ℕ) * (tm.tileSize : ℚ) -
               (tm.rows * tm.tileSize : ℕ) / 2 }
    else none

/-! ## Prefab save / instantiate (`src/App.tsx` lines 148-195) -/

/-- The serialized prefab payload: a deep copy of the entity minus its `id`
(`const { id, ...entityData } = JSON.parse(JSON.stringify(entity))`). -/
structure PrefabData where
  name : String
  transform : TransformComponent
  physics : Option PhysicsComponent
  renderer : RendererComponent
  script : Option ScriptComponent
  particles : Option ParticleEmitterComponent
  tilemap : Option TilemapComponent
  propertyAnimations : Option (List PropertyAnimation)
  prefabId : Option String
deriving DecidableEq, Repr

/-- `handleSavePrefab` (`src/App.tsx` lines 148-165): strip the id. -/
def handleSavePrefab (e : Entity) : PrefabData :=
  { name := e.name, transform := e.transform, physics := e.physics
    renderer := e.renderer, script := e.script, particles := e.particles
    tilemap := e.tilemap, propertyAnimations := e.propertyAnimations
    prefabId := e.prefabId }

/-- `handleInstantiatePrefab` (`src/App.tsx` lines 167-195): spread the
saved data, then override the id with a fresh one, suffix the name with
" (Instance)", point `prefabId` at the prefab asset, and offset the position
by (+20, +20). -/
def handleInstantiatePrefab (freshId prefabAssetId : String) (p : PrefabData) :
    Entity :=
  { id := freshId
    name := p.name ++ " (Instance)"
    transform :=
      { p.transform with
        position := ⟨p.transform.position.x + 20, p.transform.position.y + 20⟩ }
    physics := p.physics
    renderer := p.renderer
    script := p.script
    particles := p.particles
    tilemap := p.tilemap
    propertyAnimations := p.propertyAnimations
    prefabId := some prefabAssetId }

/-! ## Theorems -/

/-- Closed form of the drain loop, given enough fuel. -/
theorem stepLoop_eq (fuel : ℕ) : ∀ ft acc : ℚ, 0 < ft → 0 ≤ acc →
    acc < fuel * ft →
    stepLoop fuel ft acc = (⌊acc / ft⌋.toNat, acc - ⌊acc / ft⌋ * ft) := by
  induction fuel with
  | zero =>
    intro ft acc hft hacc hlt
    simp only [Nat.cast_zero, zero_mul] at hlt
    exact absurd hlt (not_lt.mpr hacc)
  | succ n ih =>
    intro ft acc hft hacc hlt
    rw [stepLoop]
    by_cases h : ft ≤ acc
    · rw [if_pos h]
      have hsub : (0:ℚ) ≤ acc - ft := by linarith
      have hsublt : acc - ft < n * ft := by
        push_cast at hlt ⊢
        linarith
      rw [ih ft (acc - ft) hft hsub hsublt]
      have hne : (ft:ℚ) ≠ 0 := ne_of_gt hft
      have hdiv : (acc - ft) / ft = acc / ft - 1 := by
        field_simp
      have hfl : ⌊(acc - ft) / ft⌋ = ⌊acc / ft⌋ - 1 := by
        rw [hdiv]
        exact_mod_cast Int.floor_sub_int (acc / ft) 1
      have hone : (1:ℤ) ≤ ⌊acc / ft⌋ := by
        rw [Int.le_floor]
        rw [le_div_iff₀ hft]
        push_cast
        linarith
      dsimp only
      rw [hfl]
      simp only [Prod.mk.injEq]
      refine ⟨by omega, by push_cast; ring⟩
    · rw [if_neg h]
      push_neg at h
      have hfl : ⌊acc / ft⌋ = 0 := by
        rw [Int.floor_eq_zero_iff]
        constructor
        · exact div_nonneg hacc (le_of_lt hft)
        · rw [div_lt_one hft]
          exact h
      rw [hfl]
      norm_num

/-- The fuel `catchUp` supplies really exceeds the iteration count. -/
theorem catchUp_eq (ft acc : ℚ) (hft : 0 < ft) (hacc : 0 ≤ acc) :
    catchUp ft acc = (⌊acc / ft⌋.toNat, acc - ⌊acc / ft⌋ * ft) := by
  apply stepLoop_eq _ _ _ hft hacc
  have h0 : (0:ℤ) ≤ ⌈acc / ft⌉ := Int.ceil_nonneg (div_nonneg hacc hft.le)
  have h1 : acc / ft < (⌈acc / ft⌉.toNat + 1 : ℚ) := by
    have := Int.le_ceil (acc / ft)
    have hc : (⌈acc / ft⌉ : ℚ) = ((⌈acc / ft⌉.toNat : ℤ) : ℚ) := by
      rw [Int.toNat_of_nonneg h0]
    push_cast at hc ⊢
    linarith
  calc acc = acc / ft * ft := by field_simp
    _ < (⌈acc / ft⌉.toNat + 1 : ℚ) * ft := by
        exact mul_lt_mul_of_pos_right h1 hft
    _ = ((⌈acc / ft⌉.toNat + 1 : ℕ) : ℚ) * ft := by push_cast; ring

/-- C3.  Each frame adds the frame `dt`, capped at 0.1 s, to the persistent
accumulator and advances physics one `fixedTimestep` per iteration while the
accumulator allows; the post-frame remainder lies in `[0, fixedTimestep)` and
the number of advances is `⌊(carry + min dt 0.1) / fixedTimestep⌋`. -/
theorem fixed_timestep_accumulator (ft acc dt : ℚ)
    (hft : 0 < ft) (hacc : 0 ≤ acc) (hdt : 0 ≤ dt) :
    (((frameAdvance ft acc dt).1 : ℤ) = ⌊(acc + min dt (1/10)) / ft⌋) ∧
    0 ≤ (frameAdvance ft acc dt).2 ∧ (frameAdvance ft acc dt).2 < ft ∧
    (frameAdvance ft acc dt).2 =
      (acc + min dt (1/10)) - ((frameAdvance ft acc dt).1 : ℚ) * ft := by
  set a : ℚ := acc + min dt (1/10) with ha
  have hmin : (0:ℚ) ≤ min dt (1/10) := le_min hdt (by norm_num)
  have hA : 0 ≤ a := by rw [ha]; exact add_nonneg hacc hmin
  have hkey : frameAdvance ft acc dt = (⌊a / ft⌋.toNat, a - ⌊a / ft⌋ * ft) :=
    catchUp_eq ft a hft hA
  have hfl0 : (0:ℤ) ≤ ⌊a / ft⌋ := Int.floor_nonneg.mpr (div_nonneg hA hft.le)
  have hcast : ((⌊a / ft⌋.toNat : ℤ)) = ⌊a / ft⌋ := Int.toNat_of_nonneg hfl0
  have hq : ((⌊a / ft⌋.toNat : ℚ)) = ((⌊a / ft⌋ : ℤ) : ℚ) := by
    exact_mod_cast congrArg (fun z : ℤ => (z : ℚ)) hcast
  refine ⟨?_, ?_, ?_, ?_⟩
  · rw [hkey]; exact_mod_cast hcast
  · rw [hkey]
    have := Int.floor_le (a / ft)
    have h1 : (⌊a / ft⌋ : ℚ) * ft ≤ a / ft * ft :=
      mul_le_mul_of_nonneg_right this hft.le
    have h2 : a / ft * ft = a := by field_simp
    simp only
    linarith
  · rw [hkey]
    have := Int.lt_floor_add_one (a / ft)
    have h1 : a / ft * ft < ((⌊a / ft⌋ : ℚ) + 1) * ft :=
      mul_lt_mul_of_pos_right this hft
    have h2 : a / ft * ft = a := by field_simp
    simp only
    linarith
  · rw [hkey]
    simp only
    rw [hq]

/-- Witness for C3 at `fixedTimestep = 1/60`, carry `0`, `dt = 1/30`. -/
theorem fixed_timestep_accumulator_witness :
    ((0:ℚ) < 1/60 ∧ (0:ℚ) ≤ 0 ∧ (0:ℚ) ≤ 1/30) ∧
    ((((frameAdvance (1/60) 0 (1/30)).1 : ℤ) =
        ⌊((0:ℚ) + min (1/30) (1/10)) / (1/60)⌋) ∧
      0 ≤ (frameAdvance (1/60) 0 (1/30)).2 ∧
      (frameAdvance (1/60) 0 (1/30)).2 < 1/60 ∧
      (frameAdvance (1/60) 0 (1/30)).2 =
        ((0:ℚ) + min (1/30) (1/10)) -
          ((frameAdvance (1/60) 0 (1/30)).1 : ℚ) * (1/60)) :=
  ⟨⟨by norm_num, le_refl 0, by norm_num⟩,
    fixed_timestep_accumulator (1/60) 0 (1/30) (by norm_num) (le_refl 0)
      (by norm_num)⟩

/-- A particle-step input: the frame `dt`, the emitter randomness, and the
emitter entity's position at that frame. -/
structure ParticleStepIn where
  dt : ℚ
  emit : EmitInput
  pos : ℚ × ℚ

/-- A sequence of particle steps for one emitter, starting from a pool. -/
def runParticleSteps (trig : Trig) (cfg : ParticleEmitterComponent) :
    List ParticleStepIn → List Particle → List Particle
  | [], pool => pool
  | s :: rest, pool =>
    runParticleSteps trig cfg rest
      (stepParticles trig cfg s.emit s.dt s.pos pool)

/-- The emission loop never pushes once the pool has reached the cap. -/
theorem emitLoop_length_le_max (trig : Trig) (cfg : ParticleEmitterComponent)
    (pos : ℚ × ℚ) (draws : ℕ → SpawnDraw) :
    ∀ n k pool, (emitLoop trig cfg pos draws k n pool).length ≤
      max pool.length cfg.maxParticles := by
  intro n
  induction n with
  | zero => intro k pool; rw [emitLoop]; exact le_max_left _ _
  | succ m ih =>
    intro k pool
    rw [emitLoop]
    by_cases h : pool.length < cfg.maxParticles
    · rw [if_pos h]
      refine le_trans (ih (k + 1) _) ?_
      have hlen : (pool ++ [spawnParticle trig cfg pos (draws k)]).length =
          pool.length + 1 := by simp
      rw [hlen]
      have h1 : pool.length + 1 ≤ cfg.maxParticles := h
      omega
    · rw [if_neg h]
      exact le_max_left _ _

/-- The emission loop adds at most its remaining `emitCount` particles. -/
theorem emitLoop_length_le_add (trig : Trig) (cfg : ParticleEmitterComponent)
    (pos : ℚ × ℚ) (draws : ℕ → SpawnDraw) :
    ∀ n k pool, (emitLoop trig cfg pos draws k n pool).length ≤
      pool.length + n := by
  intro n
  induction n with
  | zero => intro k pool; rw [emitLoop]; omega
  | succ m ih =>
    intro k pool
    rw [emitLoop]
    by_cases h : pool.length < cfg.maxParticles
    · rw [if_pos h]
      refine le_trans (ih (k + 1) _) ?_
      simp
      omega
    · rw [if_neg h]
      omega

/-- Ageing never grows the pool. -/
theorem ageParticles_length_le (dt : ℚ) (pool : List Particle) :
    (ageParticles dt pool).length ≤ pool.length :=
  List.length_filterMap_le _ _

/-- C2.  The emitter pool is bounded: a step ages and culls first, then
spawns at most `⌊emissionRate·dt⌋` plus the Bernoulli extra, only while the
pool is strictly below `maxParticles`; consequently one step never lifts the
pool above `max (previous length) maxParticles`, and any run from the empty
pool stays at or below `maxParticles` for every choice of `dt`,
`emissionRate` outcome and random draws. -/
theorem particle_pool_bounded (trig : Trig) (cfg : ParticleEmitterComponent) :
    (∀ steps : List ParticleStepIn,
      (runParticleSteps trig cfg steps []).length ≤ cfg.maxParticles) ∧
    (∀ (inp : EmitInput) (dt : ℚ) (pos : ℚ × ℚ) (pool : List Particle),
      (stepParticles trig cfg inp dt pos pool).length ≤
        (ageParticles dt pool).length +
          (⌊cfg.emissionRate * dt⌋ + (if inp.bern then 1 else 0)).toNat) ∧
    (∀ (inp : EmitInput) (dt : ℚ) (pos : ℚ × ℚ) (pool : List Particle),
      (stepParticles trig cfg inp dt pos pool).length ≤
        max pool.length cfg.maxParticles) := by
  have hstep : ∀ (inp : EmitInput) (dt : ℚ) (pos : ℚ × ℚ)
      (pool : List Particle),
      (stepParticles trig cfg inp dt pos pool).length ≤
        max pool.length cfg.maxParticles := by
    intro inp dt pos pool
    rw [stepParticles]
    by_cases h : cfg.emitting
    · rw [if_pos h]
      rw [emitParticles]
      refine le_trans (emitLoop_length_le_max trig cfg pos inp.draws _ _ _) ?_
      have := ageParticles_length_le dt pool
      omega
    · rw [if_neg h]
      have := ageParticles_length_le dt pool
      omega
  refine ⟨?_, ?_, hstep⟩
  · have hrun : ∀ (steps : List ParticleStepIn) (pool : List Particle),
        pool.length ≤ cfg.maxParticles →
        (runParticleSteps trig cfg steps pool).length ≤ cfg.maxParticles := by
      intro steps
      induction steps with
      | nil => intro pool h; rw [runParticleSteps]; exact h
      | cons s rest ih =>
        intro pool h
        rw [runParticleSteps]
        refine ih _ ?_
        have := hstep s.emit s.dt s.pos pool
        omega
    intro steps
    exact hrun steps [] (by simp)
  · intro inp dt pos pool
    rw [stepParticles]
    by_cases h : cfg.emitting
    · rw [if_pos h]
      rw [emitParticles]
      exact emitLoop_length_le_add trig cfg pos inp.draws _ _ _
    · rw [if_neg h]
      omega

/-- The caught script stage gives the same outcome for a script that always
throws as for one that does nothing. -/
theorem runScriptStage_throwing_eq_inert :
    runScriptStage throwingScript = runScriptStage inertScript := by
  funext hasScript e'
  cases hasScript <;> rfl

/-- A throwing script leaves one entity's frame update exactly as an inert
script does: the `catch` hands back the entity as already updated by the
physics sync, particles and animations. -/
theorem updateEntity_script_irrelevant (trig : Trig) (dt : ℚ)
    (inp : EntityInput) (e : SimEntity) :
    updateEntity trig throwingScript dt inp e =
      updateEntity trig inertScript dt inp e := by
  unfold updateEntity
  rw [runScriptStage_throwing_eq_inert]

/-- One frame's entity pass is untouched by throwing scripts. -/
theorem update_script_irrelevant (trig : Trig) (dt : ℚ)
    (inps : ℕ → EntityInput) :
    ∀ (es : List SimEntity) (i : ℕ),
      update trig throwingScript dt inps i es =
        update trig inertScript dt inps i es := by
  intro es
  induction es with
  | nil => intro i; rfl
  | cons e rest ih =>
    intro i
    rw [update, update, updateEntity_script_irrelevant, ih (i + 1)]

/-- C5.  A script body that throws on every invocation is caught per entity:
every frame's physics sync, particle updates, property animations, and the
other entities of the same and all later frames run exactly as they would
with a script that does nothing, and the frame loop is never aborted by the
script. -/
theorem throwing_scripts_do_not_disturb_frames (trig : Trig)
    (frames : List FrameInput) (es : List SimEntity) :
    runFrames trig throwingScript frames es =
      runFrames trig inertScript frames es := by
  induction frames generalizing es with
  | nil => rfl
  | cons f rest ih =>
    rw [runFrames, runFrames, update_script_irrelevant]
    cases update trig inertScript f.dt f.inps 0 es with
    | error err => rfl
    | ok es' => exact ih es'

/-! ## Concrete animation scenarios (claims C6 and C7)

An entity whose `transform.position.x` is targeted by an animation over the
keyframes `[(0,0), (1,10)]`. -/

/-- The entity data with `transform.position.x = x` (the other reflected
fields are irrelevant to the scenario). -/
def mkDataX (x : ℚ) : JSVal :=
  .obj [("transform", .obj
    [("position", .obj [("x", .num x), ("y", .num 0)]),
     ("rotation", .num 0)])]

/-- The two-keyframe curve `[(0,0), (1,10)]`. -/
def kfs01 : List Keyframe := [⟨0, 0⟩, ⟨1, 10⟩]

/-- The non-looping animation of claim C6 with cursor `s`. -/
def animNonLoop (s : ℚ) : PropertyAnimation :=
  { name := "a", property := "transform.position.x", keyframes := kfs01,
    loop := false, playing := true, currentTime := s }

/-- The looping animation of claim C7 with cursor `s`. -/
def animLoop (s : ℚ) : PropertyAnimation :=
  { name := "a", property := "transform.position.x", keyframes := kfs01,
    loop := true, playing := true, currentTime := s }

/-- A sequence of `update` passes over one animation and its entity data. -/
def runAnim : List ℚ → PropertyAnimation × JSVal →
    Except Unit (PropertyAnimation × JSVal)
  | [], s => .ok s
  | dt :: rest, s =>
    match stepAnim dt s.1 s.2 with
    | .error _ => .error ()
    | .ok s' => runAnim rest s'

/-- Assigning through `transform.position.x` on the scenario data replaces
exactly that field. -/
theorem applyPath_mkDataX (x v : ℚ) :
    applyPath (mkDataX x) (jsSplitDot "transform.position.x") v =
      .ok (mkDataX v) := by
  rfl

/-- While the advanced cursor stays at or below the final keyframe time,
a non-looping animation neither clamps nor stops. -/
theorem advanceCursor_nonLoop (s d : ℚ) (h1 : s + d ≤ 1) :
    advanceCursor (animNonLoop s) d = (s + d, true) := by
  rw [advanceCursor]
  have hc : ¬ ((animNonLoop s).currentTime + d >
      ((animNonLoop s).keyframes.getLastD ⟨0, 0⟩).time) := by
    show ¬ (s + d > (1:ℚ))
    exact not_lt.mpr h1
  rw [if_neg hc]
  rfl

/-- On `[(0,0), (1,10)]` the bracket scan picks the single segment for any
cursor inside it. -/
theorem findBracket_kfs01 (ct : ℚ) (h0 : 0 ≤ ct) (h1 : ct ≤ 1) :
    findBracket kfs01 ct = (⟨0, 0⟩, ⟨1, 10⟩) := by
  rw [findBracket, kfs01, scanPairs]
  rw [if_pos ⟨h0, h1⟩]
  rfl

/-- The interpolated sample on `[(0,0), (1,10)]` is `10·ct` inside the
segment. -/
theorem lerpValue_kfs01 (ct : ℚ) (h0 : 0 ≤ ct) (h1 : ct ≤ 1) :
    lerpValue kfs01 ct = 10 * ct := by
  rw [lerpValue, findBracket_kfs01 ct h0 h1]
  show (0:ℚ) + (10 - 0) * ((ct - 0) / (1 - 0)) = 10 * ct
  norm_num

/-- One in-range step of the non-looping scenario: cursor advances, playing
stays `true`, and the target field takes the interpolated value. -/
theorem stepAnim_nonLoop (s d x : ℚ) (h0 : 0 ≤ s + d) (h1 : s + d ≤ 1) :
    stepAnim d (animNonLoop s) (mkDataX x) =
      .ok (animNonLoop (s + d), mkDataX (10 * (s + d))) := by
  rw [stepAnim]
  rw [if_pos (⟨rfl, by norm_num [animNonLoop, kfs01]⟩ :
    (animNonLoop s).playing = true ∧ (animNonLoop s).keyframes.length > 1)]
  rw [advanceCursor_nonLoop s d h1]
  have hkf : (animNonLoop s).keyframes = kfs01 := rfl
  have hprop : (animNonLoop s).property = "transform.position.x" := rfl
  dsimp only
  rw [hkf, hprop, lerpValue_kfs01 _ h0 h1, applyPath_mkDataX]
  rfl

/-- A whole run of the non-looping scenario while the cumulative time stays
at or below the final keyframe time: the cursor ends at the cumulative sum,
`playing` stays `true`, and the field holds the last interpolated value
(the initial `x` if no step ran). -/
theorem runAnim_nonLoop : ∀ (dts : List ℚ) (s x : ℚ), 0 ≤ s →
    (∀ d ∈ dts, 0 ≤ d) → s + dts.sum ≤ 1 →
    runAnim dts (animNonLoop s, mkDataX x) =
      .ok (animNonLoop (s + dts.sum),
        mkDataX (if dts.isEmpty then x else 10 * (s + dts.sum))) := by
  intro dts
  induction dts with
  | nil =>
    intro s x hs hpos hsum
    simp only [List.sum_nil, List.isEmpty_nil, if_true, add_zero]
    rfl
  | cons d rest ih =>
    intro s x hs hpos hsum
    have hd : 0 ≤ d := hpos d (List.mem_cons_self d rest)
    have hrest : ∀ q ∈ rest, 0 ≤ q := fun q hq => hpos q (List.mem_cons_of_mem d hq)
    have hrsum : 0 ≤ rest.sum := List.sum_nonneg hrest
    have hsd1 : s + d ≤ 1 := by
      rw [List.sum_cons] at hsum
      linarith
    have hsd0 : 0 ≤ s + d := by linarith
    rw [runAnim]
    rw [stepAnim_nonLoop s d x hsd0 hsd1]
    dsimp only
    rw [ih (s + d) (10 * (s + d)) hsd0 hrest (by rw [List.sum_cons] at hsum; linarith)]
    rw [List.sum_cons, List.isEmpty_cons]
    have hassoc : s + d + rest.sum = s + (d + rest.sum) := by ring
    rw [hassoc]
    by_cases hre : rest.isEmpty = true
    · have hnil : rest = [] := List.isEmpty_iff.mp hre
      subst hnil
      simp
    · have hfalse : rest.isEmpty = false := by
        cases rest with
        | nil => exact absurd rfl hre
        | cons a l => rfl
      rw [hfalse]
      norm_num

/-- C6 counterexample input: ten `update` steps of `0.1 s` sum to exactly
one second, yet the animation is still `playing` when the cursor reaches the
final keyframe time (the stop only fires on strictly exceeding it). -/
theorem nonloop_still_playing_after_one_second :
    (runAnim (List.replicate 10 ((1:ℚ)/10)) (animNonLoop 0, mkDataX 0)).toOption.map
        (fun st => (st.1.playing, st.1.currentTime)) = some (true, 1) ∧
    (List.replicate 10 ((1:ℚ)/10)).sum = 1 := by
  have hsum : (List.replicate 10 ((1:ℚ)/10)).sum = 1 := by
    rw [List.sum_replicate]
    norm_num
  constructor
  · have hpos : ∀ d ∈ List.replicate 10 ((1:ℚ)/10), 0 ≤ d := by
      intro d hd
      rw [List.eq_of_mem_replicate hd]
      norm_num
    rw [runAnim_nonLoop _ 0 0 le_rfl hpos (by rw [hsum]; norm_num)]
    rw [hsum]
    norm_num [animNonLoop]
    exact ⟨_, ⟨_, rfl⟩, rfl, rfl⟩
  · exact hsum

/-- C6 (amended).  For dt-steps that are nonnegative and sum to exactly one
second, the non-looping `[(0,0),(1,10)]` animation ends with the target
field at `10` and the cursor at `1` — but still `playing = true`; the
terminal `playing := false` fires only when the cursor strictly exceeds the
final keyframe time. -/
theorem nonlooping_animation_run_to_one (dts : List ℚ)
    (hpos : ∀ d ∈ dts, 0 ≤ d) (hsum : dts.sum = 1) :
    runAnim dts (animNonLoop 0, mkDataX 0) =
      .ok (animNonLoop 1, mkDataX 10) := by
  have hne : dts ≠ [] := by
    intro h
    rw [h] at hsum
    norm_num at hsum
  rw [runAnim_nonLoop dts 0 0 le_rfl hpos (by rw [hsum]; norm_num), hsum]
  have hie : dts.isEmpty = false := by
    cases dts with
    | nil => exact absurd rfl hne
    | cons a l => rfl
  rw [hie]
  norm_num

/-- Witness for the amended C6 at the concrete step sequence `[0.5, 0.5]`. -/
theorem nonlooping_animation_run_to_one_witness :
    runAnim [(1:ℚ)/2, 1/2] (animNonLoop 0, mkDataX 0) =
      .ok (animNonLoop 1, mkDataX 10) :=
  nonlooping_animation_run_to_one _ (by norm_num) (by norm_num)

/-- Looping cursor advance: past the end it wraps by the JS `%`, staying in
`[0, 1]` and differing from the un-wrapped cursor by an integer. -/
theorem advanceCursor_loop (s d : ℚ) (h0 : 0 ≤ s) (hs : s ≤ 1) (hd : 0 ≤ d) :
    ∃ k : ℤ, advanceCursor (animLoop s) d = (s + d - k, true) ∧
      0 ≤ s + d - k ∧ s + d - k ≤ 1 := by
  rw [advanceCursor]
  by_cases hw : (animLoop s).currentTime + d >
      ((animLoop s).keyframes.getLastD ⟨0, 0⟩).time
  · rw [if_pos hw]
    have hgt : (1:ℚ) < s + d := hw
    refine ⟨⌊s + d⌋, ?_, ?_, ?_⟩
    · show (jsMod (s + d) 1, (animLoop s).playing) = (s + d - ⌊s + d⌋, true)
      rw [jsMod]
      rw [if_neg (by rw [div_one]; linarith)]
      rw [div_one, one_mul]
      rfl
    · have := Int.fract_nonneg (s + d)
      rw [Int.fract] at this
      linarith
    · have := Int.fract_lt_one (s + d)
      rw [Int.fract] at this
      linarith
  · rw [if_neg hw]
    have hle : s + d ≤ 1 := not_lt.mp hw
    refine ⟨0, ?_, by push_cast; linarith, by push_cast; linarith⟩
    show ((animLoop s).currentTime + d, (animLoop s).playing) = (s + d - 0, true)
    norm_num
    exact ⟨rfl, rfl⟩

/-- One step of the looping scenario: the cursor stays in `[0, 1]` modulo an
integer drop, `playing` stays `true`, and the field takes `10·cursor`. -/
theorem stepAnim_loop (s d x : ℚ) (h0 : 0 ≤ s) (hs : s ≤ 1) (hd : 0 ≤ d) :
    ∃ c : ℚ, stepAnim d (animLoop s) (mkDataX x) =
      .ok (animLoop c, mkDataX (10 * c)) ∧
      0 ≤ c ∧ c ≤ 1 ∧ ∃ k : ℤ, s + d - c = (k:ℚ) := by
  obtain ⟨k, hadv, hc0, hc1⟩ := advanceCursor_loop s d h0 hs hd
  refine ⟨s + d - k, ?_, hc0, hc1, ⟨k, by ring⟩⟩
  rw [stepAnim]
  rw [if_pos (⟨rfl, by norm_num [animLoop, kfs01]⟩ :
    (animLoop s).playing = true ∧ (animLoop s).keyframes.length > 1)]
  rw [hadv]
  have hkf : (animLoop s).keyframes = kfs01 := rfl
  have hprop : (animLoop s).property = "transform.position.x" := rfl
  dsimp only
  rw [hkf, hprop, lerpValue_kfs01 _ hc0 hc1, applyPath_mkDataX]
  rfl

/-- A whole run of the looping scenario: the final cursor is in `[0, 1]`,
congruent to the cumulative time modulo 1, and the field holds `10·cursor`. -/
theorem runAnim_loop : ∀ (dts : List ℚ) (s x : ℚ), 0 ≤ s → s ≤ 1 →
    (∀ d ∈ dts, 0 ≤ d) → dts ≠ [] →
    ∃ c : ℚ, runAnim dts (animLoop s, mkDataX x) =
      .ok (animLoop c, mkDataX (10 * c)) ∧
      0 ≤ c ∧ c ≤ 1 ∧ ∃ k : ℤ, s + dts.sum - c = (k:ℚ) := by
  intro dts
  induction dts with
  | nil =>
    intro s x _ _ _ hne
    exact absurd rfl hne
  | cons d rest ih =>
    intro s x h0 h1 hpos _
    obtain ⟨c1, hstep, hc10, hc11, k1, hk1⟩ :=
      stepAnim_loop s d x h0 h1 (hpos d (List.mem_cons_self d rest))
    rw [runAnim, hstep]
    dsimp only
    cases rest with
    | nil =>
      refine ⟨c1, rfl, hc10, hc11, ⟨k1, ?_⟩⟩
      rw [List.sum_cons, List.sum_nil]
      linarith
    | cons d2 rest2 =>
      have hrest : ∀ q ∈ d2 :: rest2, 0 ≤ q := fun q hq =>
        hpos q (List.mem_cons_of_mem d hq)
      obtain ⟨c, hrun, hcc0, hcc1, k2, hk2⟩ :=
        ih c1 (10 * c1) hc10 hc11 hrest (by simp)
      refine ⟨c, hrun, hcc0, hcc1, ⟨k1 + k2, ?_⟩⟩
      rw [List.sum_cons]
      push_cast
      linarith

/-- C7.  For dt-steps that are nonnegative and sum to exactly 2.5 s, the
looping `[(0,0),(1,10)]` animation ends with `currentTime = 0.5` and the
target field at `5` (per-step modulo wrap, then linear interpolation). -/
theorem looping_animation_at_two_and_half (dts : List ℚ)
    (hpos : ∀ d ∈ dts, 0 ≤ d) (hsum : dts.sum = 5/2) :
    runAnim dts (animLoop 0, mkDataX 0) =
      .ok (animLoop (1/2), mkDataX 5) := by
  have hne : dts ≠ [] := by
    intro h
    rw [h] at hsum
    norm_num at hsum
  obtain ⟨c, hrun, hc0, hc1, k, hk⟩ :=
    runAnim_loop dts 0 0 le_rfl (by norm_num) hpos hne
  rw [hsum] at hk
  have hkl : (1:ℤ) < k := by
    have : (1:ℚ) < (k:ℚ) := by linarith
    exact_mod_cast this
  have hku : k < 3 := by
    have : (k:ℚ) < 3 := by linarith
    exact_mod_cast this
  have hk2 : k = 2 := by omega
  subst hk2
  have hc : c = 1/2 := by push_cast at hk; linarith
  rw [hrun, hc]
  norm_num

/-- Witness for C7 at the concrete step sequence `[1, 1, 0.5]`. -/
theorem looping_animation_at_two_and_half_witness :
    runAnim [(1:ℚ), 1, 1/2] (animLoop 0, mkDataX 0) =
      .ok (animLoop (1/2), mkDataX 5) :=
  looping_animation_at_two_and_half _ (by norm_num) (by norm_num)

/-! ## Claim C1: fault handling of unresolvable animation paths -/

/-- An animation whose path misses at the first segment: `entity.foo` is
`undefined` and the walk then dereferences it. -/
def animBadEarly : PropertyAnimation :=
  { name := "bad", property := "foo.bar.x", keyframes := kfs01,
    loop := false, playing := true, currentTime := 0 }

/-- An animation whose path misses only at the parent itself:
`entity.transform.missing` reads as `undefined` and the guarded assignment
skips. -/
def animParentMiss : PropertyAnimation :=
  { name := "miss", property := "transform.missing.x", keyframes := kfs01,
    loop := false, playing := true, currentTime := 0 }

/-- Entity with the early-miss animation. -/
def entBad : SimEntity :=
  { data := mkDataX 0, anims := [animBadEarly], emitter := none,
    pool := [], hasScript := false }

/-- A healthy entity whose animation targets `transform.position.x`. -/
def entGood : SimEntity :=
  { data := mkDataX 0, anims := [animNonLoop 0], emitter := none,
    pool := [], hasScript := false }

/-- A frame input with no physics bodies and no emitter randomness. -/
def noInput : EntityInput :=
  { body := none, emit := { bern := false, draws := fun _ => ⟨0, 0, 0⟩ } }

/-- A degenerate trigonometric oracle (no rotation is exercised). -/
def trigOne : Trig := fun _ => (1, 0)

/-- If every playing animation's path walk reaches a falsy parent, the whole
animation pass of the entity succeeds silently and leaves the data intact. -/
theorem stepAnims_silent (dt : ℚ) : ∀ (anims : List PropertyAnimation) (d : JSVal),
    (∀ a ∈ anims, ∃ p,
      JSVal.walkParent d ((jsSplitDot a.property).dropLast) = .ok p ∧
      JSVal.truthy p = false) →
    ∃ anims', stepAnims dt anims d = .ok (anims', d) := by
  intro anims
  induction anims with
  | nil => intro d _; exact ⟨[], rfl⟩
  | cons a rest ih =>
    intro d h
    obtain ⟨p, hw, ht⟩ := h a (List.mem_cons_self a rest)
    have hstep : ∃ a', stepAnim dt a d = .ok (a', d) := by
      rw [stepAnim]
      by_cases hp : a.playing = true ∧ a.keyframes.length > 1
      · rw [if_pos hp]
        have happ : applyPath d (jsSplitDot a.property)
            (lerpValue a.keyframes (advanceCursor a dt).1) = .ok d := by
          unfold applyPath
          rw [hw]
          dsimp only
          rw [if_neg (by rw [ht]; exact Bool.false_ne_true)]
        dsimp only
        rw [happ]
        exact ⟨_, rfl⟩
      · rw [if_neg hp]
        exact ⟨a, rfl⟩
    obtain ⟨a', ha'⟩ := hstep
    obtain ⟨rest', hrest'⟩ := ih d (fun b hb => h b (List.mem_cons_of_mem a hb))
    refine ⟨a' :: rest', ?_⟩
    rw [stepAnims, ha']
    dsimp only
    rw [hrest']

/-- C1 (amended).  A path that resolves to a missing or falsy value only at
the parent (the second-to-last segment) makes the interpolator skip that
animation's assignment silently, data unchanged; but a missing value
dereferenced at an earlier segment raises a `TypeError` that is not caught
by the animation pass. -/
theorem animation_path_fault_semantics :
    (∀ (dt : ℚ) (d : JSVal) (anims : List PropertyAnimation),
      (∀ a ∈ anims, ∃ p,
        JSVal.walkParent d ((jsSplitDot a.property).dropLast) = .ok p ∧
        JSVal.truthy p = false) →
      (stepAnims dt anims d).toOption.map (fun r => r.2) = some d) ∧
    (∀ (d : JSVal) (parts : List String) (v : ℚ),
      JSVal.walkParent d parts.dropLast = .error () →
      applyPath d parts v = .error ()) := by
  constructor
  · intro dt d anims h
    obtain ⟨anims', h'⟩ := stepAnims_silent dt anims d h
    rw [h']
    rfl
  · intro d parts v hw
    unfold applyPath
    rw [hw]

/-- Witness for the amended C1: the parent-level miss
`transform.missing.x` skips silently on the scenario entity, and the
early miss `foo.bar.x` throws. -/
theorem animation_path_fault_semantics_witness :
    (stepAnims (1/10) [animParentMiss] (mkDataX 0)).toOption.map
        (fun r => r.2) = some (mkDataX 0) ∧
    applyPath (mkDataX 0) (jsSplitDot "foo.bar.x") 3 = .error () :=
  ⟨animation_path_fault_semantics.1 (1/10) (mkDataX 0) [animParentMiss]
      (by
        intro a ha
        rw [List.mem_singleton] at ha
        subst ha
        exact ⟨.undef, rfl, rfl⟩),
    animation_path_fault_semantics.2 (mkDataX 0) (jsSplitDot "foo.bar.x") 3 rfl⟩

/-- C1 counterexample: with an early-miss path, the exception escapes the
animation pass and aborts the frame's entity map — the healthy second
entity, which updates fine on its own, is never reached. -/
theorem animation_path_error_escapes_frame :
    update trigOne inertScript (1/10) (fun _ => noInput) 0 [entBad, entGood] =
      .error () ∧
    (update trigOne inertScript (1/10) (fun _ => noInput) 0 [entGood]).isOk =
      true := by
  constructor
  · rfl
  · rfl

/-! ## Claim C4: UI rendering and the camera transform -/

/-- C4 (code bug).  The `ctx.save(); ctx.restore()` pair at the top of
`drawEntity`'s UI branch is a no-op — `restore` pops the state pushed by the
immediately preceding `save` — so the camera translate-to-centre and zoom
stay in effect for UI entities.  The nine-point anchor arithmetic itself is
as specified: anchor `bottom-right` on an 800×600 canvas with position
(−10, −10) yields the anchored point (790, 590); but the entity's origin is
then drawn at pixel (400 + zoom·790, 300 + zoom·590) — (1190, 890) at
zoom 1, not (790, 590) — and the pixel depends on the zoom. -/
theorem ui_entity_drawn_under_camera_transform :
    anchorAdjust 800 600 (some .bottomRight) ⟨-10, -10⟩ = (790, 590) ∧
    uiScreenPos 800 600 1 (some .bottomRight) ⟨-10, -10⟩ 1 0 1 1 =
      (1190, 890) ∧
    uiScreenPos 800 600 1 (some .bottomRight) ⟨-10, -10⟩ 1 0 1 1 ≠
      (790, 590) ∧
    uiScreenPos 800 600 2 (some .bottomRight) ⟨-10, -10⟩ 1 0 1 1 ≠
      uiScreenPos 800 600 1 (some .bottomRight) ⟨-10, -10⟩ 1 0 1 1 := by
  refine ⟨?_, ?_, ?_, ?_⟩ <;>
    norm_num [uiScreenPos, drawPreamble, drawEntityUICtx, ctxSave, ctxRestore,
      ctxTranslate, ctxScale, ctxRotate, Affine.mul, Affine.apply, Affine.ident,
      anchorAdjust, Prod.ext_iff]

/-! ## Claim C8: prefab save / instantiate round trip -/

/-- A concrete entity for the counterexample. -/
def boxEntity : Entity :=
  { id := "e1", name := "Box",
    transform := { position := ⟨0, 0⟩, rotation := 0, scale := ⟨1, 1⟩ },
    renderer := { type := .rect, color := "#ffffff", width := 10, height := 10 } }

/-- C8 counterexample: instantiating a saved prefab does not leave "all
other fields" equal — the name gains an " (Instance)" suffix and `prefabId`
is pointed at the prefab asset. -/
theorem prefab_roundtrip_renames :
    (handleInstantiatePrefab "fresh" "asset1" (handleSavePrefab boxEntity)).name ≠
      boxEntity.name ∧
    (handleInstantiatePrefab "fresh" "asset1" (handleSavePrefab boxEntity)).prefabId ≠
      boxEntity.prefabId := by
  exact ⟨by decide, by decide⟩

/-- C8 (amended).  Saving an entity as a prefab (serialize minus id) and
instantiating it yields an entity equal to the original except for: the
fresh id, the position offset of exactly (+20, +20), the name suffixed with
" (Instance)", and `prefabId` set to the prefab asset's id; every other
field carries over unchanged. -/
theorem prefab_roundtrip_fields (e : Entity) (freshId assetId : String) :
    (handleInstantiatePrefab freshId assetId (handleSavePrefab e)).id = freshId ∧
    (handleInstantiatePrefab freshId assetId (handleSavePrefab e)).name =
      e.name ++ " (Instance)" ∧
    (handleInstantiatePrefab freshId assetId (handleSavePrefab e)).prefabId =
      some assetId ∧
    (handleInstantiatePrefab freshId assetId (handleSavePrefab e)).transform.position.x =
      e.transform.position.x + 20 ∧
    (handleInstantiatePrefab freshId assetId (handleSavePrefab e)).transform.position.y =
      e.transform.position.y + 20 ∧
    (handleInstantiatePrefab freshId assetId (handleSavePrefab e)).transform.rotation =
      e.transform.rotation ∧
    (handleInstantiatePrefab freshId assetId (handleSavePrefab e)).transform.scale =
      e.transform.scale ∧
    (handleInstantiatePrefab freshId assetId (handleSavePrefab e)).transform.isUI =
      e.transform.isUI ∧
    (handleInstantiatePrefab freshId assetId (handleSavePrefab e)).transform.anchor =
      e.transform.anchor ∧
    (handleInstantiatePrefab freshId assetId (handleSavePrefab e)).physics =
      e.physics ∧
    (handleInstantiatePrefab freshId assetId (handleSavePrefab e)).renderer =
      e.renderer ∧
    (handleInstantiatePrefab freshId assetId (handleSavePrefab e)).script =
      e.script ∧
    (handleInstantiatePrefab freshId assetId (handleSavePrefab e)).particles =
      e.particles ∧
    (handleInstantiatePrefab freshId assetId (handleSavePrefab e)).tilemap =
      e.tilemap ∧
    (handleInstantiatePrefab freshId assetId (handleSavePrefab e)).propertyAnimations =
      e.propertyAnimations :=
  ⟨rfl, rfl, rfl, rfl, rfl, rfl, rfl, rfl, rfl, rfl, rfl, rfl, rfl, rfl, rfl⟩

/-! ## Claim C9: pointer hit-testing -/

/-- `find?` skips a failing block and returns the first success after it. -/
theorem find?_append_skip {α : Type} (q : α → Bool) (e : α) (ys : List α) :
    ∀ xs : List α, (∀ x ∈ xs, q x = false) → q e = true →
    List.find? q (xs ++ e :: ys) = some e := by
  intro xs
  induction xs with
  | nil =>
    intro _ he
    rw [List.nil_append]
    exact List.find?_cons_of_pos _ he
  | cons x xs ih =>
    intro h he
    rw [List.cons_append]
    rw [List.find?_cons_of_neg _ (by rw [h x (List.mem_cons_self x xs)]; exact Bool.false_ne_true)]
    exact ih (fun y hy => h y (List.mem_cons_of_mem x hy)) he

/-- The hit-test rectangle of the concrete scenario: 40 × 4 at the origin,
unit scale.  The rotation field is degrees; the oracle below supplies the
corresponding `(cos, sin)` values. -/
def hitRect : Entity :=
  { id := "r", name := "r",
    transform := { position := ⟨0, 0⟩, rotation := 53, scale := ⟨1, 1⟩ },
    renderer := { type := .rect, color := "#ffffff", width := 40, height := 4 } }

/-- Oracle for the inverse rotation of `hitRect`'s 53.13°-style rotation:
`(cos α, sin α) = (3/5, 4/5)` (a 3-4-5 rotation). -/
def trigRot : Trig := fun _ => (3/5, 4/5)

/-- Oracle of an unrotated entity: `(cos 0, sin 0) = (1, 0)`; with it the
containment test is exactly the axis-aligned scaled bounding-box test. -/
def trigAxis : Trig := fun _ => (1, 0)

/-- Entities that do not contain the probed points (hit-test noise). -/
def farRect : Entity :=
  { hitRect with
    id := "far"
    transform := { position := ⟨1000, 1000⟩, rotation := 53, scale := ⟨1, 1⟩ } }

/-- Another non-containing entity placed after the target in scene order. -/
def missRect : Entity :=
  { hitRect with
    id := "miss"
    transform := { position := ⟨-500, 300⟩, rotation := 53, scale := ⟨1, 1⟩ } }

/-- C9.  Hit-testing inverse-rotates the pointer about the parallax-adjusted
position and tests circle or scaled-box containment, walking candidates in
reverse scene order, so the last containing entity in scene order wins; and
on a rotated rectangle, a point inside the rotated box but outside the
axis-aligned box hits while a point outside the rotated box but inside the
axis-aligned box does not. -/
theorem hit_test_semantics :
    (∀ (trig : Trig) (cam p : ℚ × ℚ) (l₁ l₂ : List Entity) (e : Entity),
      containsPoint trig cam p e = true →
      (∀ x ∈ l₂, containsPoint trig cam p x = false) →
      hitTestEntities trig cam p (l₁ ++ e :: l₂) = some e) ∧
    (containsPoint trigRot (0, 0) (54/5, -72/5) hitRect = true ∧
      containsPoint trigAxis (0, 0) (54/5, -72/5) hitRect = false ∧
      containsPoint trigRot (0, 0) (19, 0) hitRect = false ∧
      containsPoint trigAxis (0, 0) (19, 0) hitRect = true) := by
  constructor
  · intro trig cam p l₁ l₂ e he hl₂
    rw [hitTestEntities]
    have hrev : (l₁ ++ e :: l₂).reverse = l₂.reverse ++ e :: l₁.reverse := by
      rw [List.reverse_append, List.reverse_cons, List.append_assoc,
        List.singleton_append]
    rw [hrev]
    exact find?_append_skip _ e l₁.reverse l₂.reverse
      (fun x hx => hl₂ x (List.mem_reverse.mp hx)) he
  · refine ⟨?_, ?_, ?_, ?_⟩ <;>
      norm_num [containsPoint, trigRot, trigAxis, hitRect] <;> decide

/-- Witness for C9: in the scene `[farRect, hitRect, missRect]` the probe at
the rotated point selects `hitRect` — the last containing entity in scene
order — and the containment facts hold at the concrete inputs. -/
theorem hit_test_semantics_witness :
    hitTestEntities trigRot (0, 0) (54/5, -72/5) [farRect, hitRect, missRect] =
      some hitRect :=
  hit_test_semantics.1 trigRot (0, 0) (54/5, -72/5) [farRect] [missRect]
    hitRect
    (by norm_num [containsPoint, trigRot, hitRect] <;> decide)
    (by
      intro x hx
      rw [List.mem_singleton] at hx
      subst hx
      norm_num [containsPoint, trigRot, missRect, hitRect] <;> decide)

/-! ## Claim C10: tilemap rendering -/

/-- C10.  The code's tile pass produces exactly the draws of the claim's
description: index 0 (and below) draws nothing; index `n > 0` picks source
tile `n − 1` row-major with `⌊imageWidth / tileSize⌋` tiles per row; cell `i`
lands at grid column `i mod columns`, row `i div columns`, with the grid
centred on the entity origin. -/
theorem tilemap_layer_draws_as_specified (imgW : ℕ) (tm : TilemapComponent)
    (layer : TilemapLayer) :
    drawTilemapLayer imgW tm layer = tilemapLayerSpec imgW tm layer := by
  rw [drawTilemapLayer, tilemapLayerSpec]
  refine congrArg (fun f => List.filterMap f layer.data.enum) ?_
  funext en
  by_cases h : 0 < en.2
  · rw [if_pos h, if_pos h]
    refine congrArg some ?_
    simp only [TileDraw.mk.injEq]
    refine ⟨trivial, trivial, by ring, by ring⟩
  · rw [if_neg h, if_neg h]

end Ice
